import Mathlib

/-
Verification of the Evilginx3 repository against its natural-language
specification.

The repository's visible source is `core/telegram.go` (the Telegram
notification collaborator: a bounded message queue, a worker goroutine,
formatting and Markdown escaping, test-message and document upload paths)
plus an installer shell script.  The proxy core itself (rewrite engine,
session capture state machine) is described by the specification but its
source is not included here; those parts are modelled from the spec, as
noted on each such definition.

Machine integers do not occur in the modelled code paths; queue lengths are
Nat.  Fallible operations return Except; external effects (HTTP outcomes,
the filesystem) are passed explicitly as oracle values.
-/

namespace Evilginx

/-! ## Generic single-pass string replacer

Go's `strings.Replacer` (used by `escapeMarkdown`) scans the input left to
right; at each position the first pattern (in argument order) that matches
is replaced and the scan continues after the replacement's source text.
The hostname-substitution engine of spec §4.1 uses the same scan but picks
the longest matching pattern at each position.  Both are instances of
`replaceFuel` with different selectors; strings are worked on as `List Char`
(`String.data`).  The fuel argument equals the input length, which suffices
because every selected pattern is non-empty. -/

/-- A rule `(pattern, replacement)` applies at the front of `s` when its
pattern is non-empty and is a prefix of `s`. -/
def matchPair (s : List Char) (pr : List Char × List Char) : Bool :=
  !pr.1.isEmpty && pr.1.isPrefixOf s

/-- First rule (in list order) applying at the front of `s` -- the
`strings.Replacer` selection order. -/
def firstRule (pairs : List (List Char × List Char)) (s : List Char) :
    Option (List Char × List Char) :=
  pairs.find? (matchPair s)

/-- Rule with the longest pattern applying at the front of `s`, earliest
rule winning ties -- the longest-match-first selection of spec §4.1. -/
def bestRule : List (List Char × List Char) → List Char →
    Option (List Char × List Char)
  | [], _ => none
  | pr :: ps, s =>
    match bestRule ps s with
    | none => if matchPair s pr then some pr else none
    | some best =>
      if matchPair s pr then
        if best.1.length > pr.1.length then some best else some pr
      else some best

/-- One left-to-right replacing scan driven by a selector `sel`; `fuel`
bounds the number of steps (inputs of length at most `fuel` are fully
processed when `sel` only returns non-empty patterns). -/
def replaceFuel (sel : List Char → Option (List Char × List Char)) :
    Nat → List Char → List Char
  | 0, s => s
  | _ + 1, [] => []
  | f + 1, c :: rest =>
    match sel (c :: rest) with
    | some pr => pr.2 ++ replaceFuel sel f ((c :: rest).drop pr.1.length)
    | none => c :: replaceFuel sel f rest

/-! ## Hostname substitution (spec §4.1), modelled from the spec

Modelled from the spec: the Rewrite Engine source is not part of the
visible repository files; per §4.1 hostname substitution scans the text and
replaces, at each position, the longest configured `proxyHosts` pattern
that matches there ("longest-match-first"), continuing after the
replacement.  The response path uses pairs `(origHost, phishHost)`; the
request path uses the swapped pairs `(phishHost, origHost)`. -/

/-- Longest-match-first hostname substitution over the character list of a
body (or of a header / cookie-domain value). -/
def hostSub (pairs : List (List Char × List Char)) (s : List Char) :
    List Char :=
  replaceFuel (bestRule pairs) s.length s

/-- `hostSub` on `String`s. -/
def hostSubStr (pairs : List (String × String)) (s : String) : String :=
  String.mk (hostSub (pairs.map (fun pr => (pr.1.data, pr.2.data))) s.data)

/-- The request-path pair list: each response-path pair swapped. -/
def swapPairs (pairs : List (List Char × List Char)) :
    List (List Char × List Char) :=
  pairs.map Prod.swap

/-! ## Markdown escaping (`escapeMarkdown`, telegram.go lines 330-353)

The source builds a `strings.NewReplacer` from 18 single-character
patterns, each replaced by a backslash followed by the character, and
applies it to the text.  `strings.Replacer` replaces, left to right, the
first pattern (in argument order) matching at each position. -/

/-- The 18 replacement pairs passed to `strings.NewReplacer` in
`escapeMarkdown`, in source order. -/
def mdPairs : List (String × String) :=
  [("_", "\\_"), ("*", "\\*"), ("[", "\\["), ("]", "\\]"),
   ("(", "\\("), (")", "\\)"), ("~", "\\~"), ("`", "\\`"),
   (">", "\\>"), ("#", "\\#"), ("+", "\\+"), ("-", "\\-"),
   ("=", "\\="), ("|", "\\|"), ("\x7b", "\\\x7b"), ("\x7d", "\\\x7d"),
   (".", "\\."), ("!", "\\!")]

/-- `mdPairs` as character lists. -/
def mdPairsChars : List (List Char × List Char) :=
  mdPairs.map (fun pr => (pr.1.data, pr.2.data))

/-- `strings.Replacer.Replace`: first-match-in-order single-pass
replacement. -/
def goReplacerRun (pairs : List (List Char × List Char)) (s : List Char) :
    List Char :=
  replaceFuel (firstRule pairs) s.length s

/-- `escapeMarkdown` (telegram.go line 330). -/
def escapeMarkdown (s : String) : String :=
  String.mk (goReplacerRun mdPairsChars s.data)

/-- The 18 special characters of the claim, in the order the source lists
them (claim-side characterization). -/
def mdSpecialChars : List Char :=
  ['_', '*', '[', ']', '(', ')', '~', '\x60', '>', '#', '+', '-',
   '=', '|', '\x7b', '\x7d', '.', '!']

/-- Claim-side per-character description of the escaping: each special
character becomes backslash-then-character, every other character
(backslash included) is kept unchanged. -/
def escSpecList : List Char → List Char
  | [] => []
  | c :: rest =>
    (if mdSpecialChars.contains c then ['\\', c] else [c]) ++ escSpecList rest

/-- Claim-side escaping on `String`s. -/
def escapeMarkdownSpec (s : String) : String :=
  String.mk (escSpecList s.data)

/-! ## Telegram bot model (telegram.go)

`TelegramBot` carries the configuration, the pending-message queue (the
buffered channel `msgQueue` of capacity 100, modelled as a FIFO list with
head = oldest) and whether `Start` launched the worker.  The `http.Client`
and the two `chan` handles carry no further state that the claims touch.
A buffered-channel send inside `select { case ch <- msg: default: }`
succeeds exactly when the buffer holds fewer than its capacity of
elements, and otherwise takes the non-blocking `default` branch. -/

/-- `TelegramMessage` (telegram.go line 29). -/
structure TelegramMessage where
  chatID : String
  text : String
  parseMode : String
deriving DecidableEq, Repr

/-- The state of a `TelegramBot` (telegram.go line 19). -/
structure TelegramBot where
  botToken : String
  chatID : String
  enabled : Bool
  msgQueue : List TelegramMessage
  started : Bool
deriving DecidableEq, Repr

/-- Queue capacity: `make(chan *TelegramMessage, 100)` in `NewTelegramBot`
(telegram.go line 40). -/
def queueCapacity : Nat := 100

/-- `NewTelegramBot` (telegram.go line 35): empty configuration, empty
queue, worker not yet started. -/
def newTelegramBot : TelegramBot :=
  { botToken := "", chatID := "", enabled := false,
    msgQueue := [], started := false }

/-- `SetConfig` (telegram.go line 312). -/
def setConfig (t : TelegramBot) (botToken chatID : String)
    (enabled : Bool) : TelegramBot :=
  { t with botToken := botToken, chatID := chatID, enabled := enabled }

/-- The guard `!t.enabled || t.botToken == "" || t.chatID == ""` shared by
the send paths (telegram.go lines 46, 81, 112, 150, 215, 286). -/
def notConfigured (t : TelegramBot) : Bool :=
  !t.enabled || t.botToken == "" || t.chatID == ""

/-- `Start` (telegram.go line 45): the worker goroutine is launched only
when the bot is enabled and configured. -/
def startBot (t : TelegramBot) : TelegramBot :=
  if notConfigured t then t else { t with started := true }

/-- `IsEnabled` (telegram.go line 326). -/
def isEnabled (t : TelegramBot) : Bool :=
  t.enabled && t.botToken != "" && t.chatID != ""

/-- The `fmt.Sprintf` of `SendCredentials` (telegram.go lines 118-133);
`timestamp` stands for the formatted `time.Now()`. -/
def sendCredentialsText (sessionID : Int)
    (username password ip userAgent domain timestamp : String) : String :=
  "🎯 *Captured Session " ++ toString sessionID ++ "*\n\n" ++
  "📧 *Username:* `" ++ escapeMarkdown username ++ "`\n" ++
  "🔑 *Password:* `" ++ escapeMarkdown password ++ "`\n" ++
  "🌐 *IP:* `" ++ ip ++ "`\n" ++
  "📱 *User-Agent:* " ++ escapeMarkdown userAgent ++ "\n" ++
  "🌐 *Domain:* " ++ domain ++ "\n" ++
  "⏰ *Time:* " ++ timestamp

/-- Claim-side template of the credentials message: the same text with the
field values inserted verbatim, making explicit which arguments
`sendCredentialsText` passes through `escapeMarkdown` (username, password,
user-agent) and which it inserts raw (ip, domain, timestamp). -/
def credentialsTemplate (sessionID : Int)
    (username password ip userAgent domain timestamp : String) : String :=
  "🎯 *Captured Session " ++ toString sessionID ++ "*\n\n" ++
  "📧 *Username:* `" ++ username ++ "`\n" ++
  "🔑 *Password:* `" ++ password ++ "`\n" ++
  "🌐 *IP:* `" ++ ip ++ "`\n" ++
  "📱 *User-Agent:* " ++ userAgent ++ "\n" ++
  "🌐 *Domain:* " ++ domain ++ "\n" ++
  "⏰ *Time:* " ++ timestamp

/-- The `switch updateType` and `fmt.Sprintf` of `SendSessionUpdate`
(telegram.go lines 154-180). -/
def sendSessionUpdateText (sessionID : Int)
    (updateType value ip timestamp : String) : String :=
  let emoji := if updateType == "username" then "📧"
    else if updateType == "password" then "🔑" else "📝"
  let field := if updateType == "username" then "Username"
    else if updateType == "password" then "Password" else updateType
  "🔔 *Session " ++ toString sessionID ++ " Update*\n\n" ++
  emoji ++ " *" ++ field ++ ":* `" ++ escapeMarkdown value ++ "`\n" ++
  "🌐 *IP:* `" ++ ip ++ "`\n" ++
  "⏰ *Time:* " ++ timestamp

/-- Claim-side template of the session-update message with the update
value inserted verbatim. -/
def updateTemplate (sessionID : Int)
    (updateType value ip timestamp : String) : String :=
  let emoji := if updateType == "username" then "📧"
    else if updateType == "password" then "🔑" else "📝"
  let field := if updateType == "username" then "Username"
    else if updateType == "password" then "Password" else updateType
  "🔔 *Session " ++ toString sessionID ++ " Update*\n\n" ++
  emoji ++ " *" ++ field ++ ":* `" ++ value ++ "`\n" ++
  "🌐 *IP:* `" ++ ip ++ "`\n" ++
  "⏰ *Time:* " ++ timestamp

/-- The `TelegramMessage` value built by `SendCredentials`
(telegram.go lines 135-139). -/
def credentialsMessage (t : TelegramBot) (sessionID : Int)
    (username password ip userAgent domain timestamp : String) :
    TelegramMessage :=
  { chatID := t.chatID,
    text := sendCredentialsText sessionID username password ip userAgent
      domain timestamp,
    parseMode := "Markdown" }

/-- The `TelegramMessage` value built by `SendSessionUpdate`
(telegram.go lines 182-186). -/
def updateMessage (t : TelegramBot) (sessionID : Int)
    (updateType value ip timestamp : String) : TelegramMessage :=
  { chatID := t.chatID,
    text := sendSessionUpdateText sessionID updateType value ip timestamp,
    parseMode := "Markdown" }

/-- Outcome of an emission: the message was queued, or dropped on a full
queue (with the logged warning), or the call returned at its configuration
guard.  The Go functions return nothing and never an error; the outcome
only records which path ran. -/
inductive EmitOutcome where
  | enqueued
  | droppedQueueFull
  | skippedUnconfigured
deriving DecidableEq, Repr

/-- `SendCredentials` (telegram.go lines 111-147): guard, message build,
then non-blocking `select` send with `default` dropping on a full queue. -/
def sendCredentials (t : TelegramBot) (sessionID : Int)
    (username password ip userAgent domain timestamp : String) :
    TelegramBot × EmitOutcome :=
  if notConfigured t then (t, EmitOutcome.skippedUnconfigured)
  else if t.msgQueue.length < queueCapacity then
    ({ t with msgQueue := t.msgQueue ++
        [credentialsMessage t sessionID username password ip userAgent
          domain timestamp] },
     EmitOutcome.enqueued)
  else (t, EmitOutcome.droppedQueueFull)

/-- `SendSessionUpdate` (telegram.go lines 149-193). -/
def sendSessionUpdate (t : TelegramBot) (sessionID : Int)
    (updateType value ip timestamp : String) : TelegramBot × EmitOutcome :=
  if notConfigured t then (t, EmitOutcome.skippedUnconfigured)
  else if t.msgQueue.length < queueCapacity then
    ({ t with msgQueue := t.msgQueue ++
        [updateMessage t sessionID updateType value ip timestamp] },
     EmitOutcome.enqueued)
  else (t, EmitOutcome.droppedQueueFull)

/-- The drain loop of `messageWorker` after the stop signal
(telegram.go lines 68-75): dequeue every pending message and attempt to
send each; returns the send attempts in dequeue order and the final
(empty) queue. -/
def workerDrain : List TelegramMessage →
    List TelegramMessage × List TelegramMessage
  | [] => ([], [])
  | m :: rest =>
    let r := workerDrain rest
    (m :: r.1, r.2)

/-- `Stop` (telegram.go line 54) for a bot: the stop channel is closed and
`wg.Wait` returns once the worker (when one was started) has drained the
queue and exited.  Returns the post-stop bot and the send attempts the
worker made while draining.  When no worker was started `wg.Wait` returns
at once and nothing is drained. -/
def stopBot (t : TelegramBot) : TelegramBot × List TelegramMessage :=
  if t.started then
    ({ t with msgQueue := (workerDrain t.msgQueue).2, started := false },
     (workerDrain t.msgQueue).1)
  else (t, [])

/-- Oracle for one HTTP round trip of `sendMessage`: the request errored,
or returned a status code. -/
inductive NetOutcome where
  | reqError (e : String)
  | status (code : Nat)
deriving DecidableEq, Repr

/-- `sendMessage` (telegram.go lines 80-109): configuration guard, then
the HTTP exchange (`net` supplies its outcome); a non-200 status is an
error. -/
def sendMessageResult (t : TelegramBot) (net : NetOutcome) :
    Except String Unit :=
  if notConfigured t then Except.error "telegram bot not configured"
  else
    match net with
    | NetOutcome.reqError e => Except.error e
    | NetOutcome.status code =>
      if code == 200 then Except.ok ()
      else Except.error ("telegram API returned status code: " ++
        toString code)

/-- `SendTestMessage` (telegram.go lines 195-212): its own guard checks
only the token and chat ID, then it calls `sendMessage` directly. -/
def sendTestMessage (t : TelegramBot) (net : NetOutcome) :
    Except String Unit :=
  if t.botToken == "" || t.chatID == "" then
    Except.error "telegram bot not configured"
  else sendMessageResult t net

/-- Oracle for the fallible steps of `SendDocument`: file open, the
multipart-form constructions, request creation, the HTTP round trip and
its status code. -/
structure DocEffects where
  openOk : Bool
  createFormOk : Bool
  copyOk : Bool
  chatFieldOk : Bool
  captionFieldOk : Bool
  parseModeFieldOk : Bool
  closeOk : Bool
  newRequestOk : Bool
  doOk : Bool
  statusCode : Nat
deriving DecidableEq, Repr

/-- `SendDocument` (telegram.go lines 214-283) over a filesystem modelled
as `String → Bool` (does a file exist at this path).  Every error path
returns before `os.Remove`; only the success path (status 200) removes the
file at `filePath`. -/
def sendDocument (t : TelegramBot) (eff : DocEffects)
    (fs : String → Bool) (filePath caption : String) :
    Except String Unit × (String → Bool) :=
  if notConfigured t then (Except.error "telegram bot not configured", fs)
  else if !(fs filePath && eff.openOk) then
    (Except.error "open failed", fs)
  else if !eff.createFormOk then (Except.error "create form failed", fs)
  else if !eff.copyOk then (Except.error "copy failed", fs)
  else if !eff.chatFieldOk then (Except.error "write chat_id failed", fs)
  else if caption != "" && !eff.captionFieldOk then
    (Except.error "write caption failed", fs)
  else if caption != "" && !eff.parseModeFieldOk then
    (Except.error "write parse_mode failed", fs)
  else if !eff.closeOk then (Except.error "close writer failed", fs)
  else if !eff.newRequestOk then (Except.error "new request failed", fs)
  else if !eff.doOk then (Except.error "request failed", fs)
  else if eff.statusCode != 200 then
    (Except.error ("telegram API returned status code: " ++
      toString eff.statusCode), fs)
  else (Except.ok (), fun p => if p == filePath then false else fs p)

/-- One interleaving step against the bot: an emission, a worker dequeue
of the oldest pending message (the `case msg := <-t.msgQueue` branch of
`messageWorker`), or a reconfiguration. -/
inductive BotOp where
  | emitCred (sessionID : Int)
      (username password ip userAgent domain timestamp : String)
  | emitUpdate (sessionID : Int) (updateType value ip timestamp : String)
  | workerTake
  | configure (botToken chatID : String) (enabled : Bool)

/-- Effect of one `BotOp` on the bot state. -/
def botStep (t : TelegramBot) : BotOp → TelegramBot
  | BotOp.emitCred sid u pw ip ua dom ts =>
    (sendCredentials t sid u pw ip ua dom ts).1
  | BotOp.emitUpdate sid ty v ip ts =>
    (sendSessionUpdate t sid ty v ip ts).1
  | BotOp.workerTake => { t with msgQueue := t.msgQueue.tail }
  | BotOp.configure tok chat en => setConfig t tok chat en

/-- Run a sequence of operations from the freshly constructed bot. -/
def runBot (ops : List BotOp) : TelegramBot :=
  ops.foldl botStep newTelegramBot

/-- A fixed already-queued message, used to build a full queue. -/
def dummyMessage : TelegramMessage :=
  { chatID := "C", text := "m", parseMode := "Markdown" }

/-- An enabled, configured bot whose queue is full (100 pending
messages). -/
def fullBot : TelegramBot :=
  { botToken := "T", chatID := "C", enabled := true,
    msgQueue := List.replicate queueCapacity dummyMessage, started := true }

/-- An enabled, configured bot with an empty queue and a started
worker. -/
def witnessBot : TelegramBot :=
  { botToken := "T", chatID := "C", enabled := true,
    msgQueue := [], started := true }

/-- A bot with token and chat ID set but the enabled flag off. -/
def disabledBot : TelegramBot :=
  { botToken := "T", chatID := "C", enabled := false,
    msgQueue := [], started := false }

/-! ## Session capture state machine (spec §4.5), modelled from the spec

Modelled from the spec: the Session Capture State Machine source is not
part of the visible repository files.  Per §4.5 the states are
NEW → CREDENTIALS_PARTIAL → CREDENTIALS_COMPLETE, with AUTHENTICATED
reachable from any state once every non-optional authToken rule has a
matching captured cookie; re-submission of a credential field overwrites
the stored value without changing state; token/cookie matching is
abstracted to equality on host and cookie name. -/

/-- An authToken rule (spec §3): host pattern, cookie-name pattern,
optionality. -/
structure AuthTokenRule where
  host : String
  name : String
  isOptional : Bool
deriving DecidableEq, Repr

/-- A captured cookie (spec §3, restricted to the fields token matching
uses). -/
structure CapturedCookie where
  name : String
  domain : String
  value : String
deriving DecidableEq, Repr

/-- The phishlet data the state machine consults: declared credential
field types and authToken rules. -/
structure PhishletCfg where
  credFields : List String
  authTokens : List AuthTokenRule
deriving Repr

/-- States of the capture machine (spec §4.5): `created` is NEW,
`credsPartway` is CREDENTIALS_PARTIAL, `credsFull` is
CREDENTIALS_COMPLETE, `authenticated` is AUTHENTICATED. -/
inductive SessState where
  | created
  | credsPartway
  | credsFull
  | authenticated
deriving DecidableEq, Repr

/-- A capture event: a submitted credential field or an observed
cookie. -/
inductive CaptureEvent where
  | credential (fieldType value : String)
  | cookie (c : CapturedCookie)

/-- A session's capture record (spec §3, the fields the state machine
mutates). -/
structure Session where
  creds : List (String × String)
  cookies : List CapturedCookie
  state : SessState
deriving Repr

/-- Whether a cookie matches an authToken rule. -/
def cookieMatches (r : AuthTokenRule) (c : CapturedCookie) : Bool :=
  r.host == c.domain && r.name == c.name

/-- All non-optional authToken rules have a matching captured cookie. -/
def requiredSatisfied (ph : PhishletCfg)
    (cookies : List CapturedCookie) : Bool :=
  ph.authTokens.all (fun r => r.isOptional || cookies.any (cookieMatches r))

/-- Store a credential value: last write per field type wins (spec §3). -/
def upsertCred (creds : List (String × String)) (ft v : String) :
    List (String × String) :=
  if creds.any (fun p => p.1 == ft) then
    creds.map (fun p => if p.1 == ft then (ft, v) else p)
  else creds ++ [(ft, v)]

/-- One transition of the capture machine (spec §4.5). -/
def applyEvent (ph : PhishletCfg) (s : Session) (e : CaptureEvent) :
    Session :=
  match e with
  | CaptureEvent.credential ft v =>
    let creds' := upsertCred s.creds ft v
    let st' :=
      if s.state = SessState.authenticated then SessState.authenticated
      else if ph.credFields.all (fun f => creds'.any (fun p => p.1 == f))
        then SessState.credsFull
      else SessState.credsPartway
    { s with creds := creds', state := st' }
  | CaptureEvent.cookie c =>
    let cookies' := if s.cookies.contains c then s.cookies
      else s.cookies ++ [c]
    let st' := if requiredSatisfied ph cookies' then SessState.authenticated
      else s.state
    { s with cookies := cookies', state := st' }

/-- Apply a sequence of capture events. -/
def runEvents (ph : PhishletCfg) (s : Session)
    (evs : List CaptureEvent) : Session :=
  evs.foldl (applyEvent ph) s

/-- The session's `authenticated` flag (spec §3): true exactly in the
AUTHENTICATED state. -/
def sessionAuthenticated (s : Session) : Bool :=
  s.state == SessState.authenticated

/-- A concrete phishlet configuration: two credential fields, one required
auth token. -/
def witnessPhishlet : PhishletCfg :=
  { credFields := ["username", "password"],
    authTokens := [{ host := "login.real.test", name := "session", isOptional := false }] }

/-- A concrete session that has already reached AUTHENTICATED. -/
def witnessSession : Session :=
  { creds := [("username", "alice")],
    cookies := [{ name := "session", domain := "login.real.test", value := "abc" }],
    state := SessState.authenticated }

/-- A credential re-submission followed by an unrelated cookie. -/
def witnessEvents : List CaptureEvent :=
  [CaptureEvent.credential "password" "hunter2",
   CaptureEvent.cookie { name := "other", domain := "d.test", value := "v" }]

/-! ## Replacer lemmas -/

theorem replaceFuel_nil (sel : List Char → Option (List Char × List Char))
    (f : Nat) : replaceFuel sel f [] = [] := by
  cases f <;> rfl

theorem replaceFuel_congr (sel : List Char → Option (List Char × List Char))
    (hsel : ∀ s pr, sel s = some pr → pr.1 ≠ []) :
    ∀ (n : Nat) (s : List Char), s.length ≤ n →
      ∀ (f g : Nat), s.length ≤ f → s.length ≤ g →
        replaceFuel sel f s = replaceFuel sel g s := by
  intro n
  induction n with
  | zero =>
    intro s hs f g _ _
    have : s = [] := List.length_eq_zero.mp (Nat.le_zero.mp hs)
    subst this
    rw [replaceFuel_nil, replaceFuel_nil]
  | succ n ih =>
    intro s hs f g hf hg
    cases s with
    | nil => rw [replaceFuel_nil, replaceFuel_nil]
    | cons c rest =>
      have hlen : (c :: rest).length = rest.length + 1 := rfl
      cases f with
      | zero => exact absurd hf (by simp)
      | succ f' =>
        cases g with
        | zero => exact absurd hg (by simp)
        | succ g' =>
          cases hcase : sel (c :: rest) with
          | none =>
            simp only [replaceFuel, hcase]
            have := ih rest (by simp at hs; omega) f' g'
              (by simp at hf; omega) (by simp at hg; omega)
            rw [this]
          | some pr =>
            simp only [replaceFuel, hcase]
            have hne := hsel _ _ hcase
            have hpos : 1 ≤ pr.1.length := by
              cases hp : pr.1 with
              | nil => exact absurd hp hne
              | cons a as => simp [hp]
            have hdrop : ((c :: rest).drop pr.1.length).length
                = (c :: rest).length - pr.1.length := List.length_drop _ _
            have := ih ((c :: rest).drop pr.1.length)
              (by rw [hdrop]; simp at hs ⊢; omega) f' g'
              (by rw [hdrop]; simp at hf ⊢; omega)
              (by rw [hdrop]; simp at hg ⊢; omega)
            rw [this]

theorem firstRule_pat_ne_nil (pairs : List (List Char × List Char))
    (s : List Char) (pr : List Char × List Char)
    (h : firstRule pairs s = some pr) : pr.1 ≠ [] := by
  have hm := List.find?_some h
  unfold matchPair at hm
  intro hnil
  rw [hnil] at hm
  simp at hm

theorem bestRule_none (pairs : List (List Char × List Char))
    (s : List Char) (h : bestRule pairs s = none) :
    ∀ q ∈ pairs, matchPair s q = false := by
  induction pairs with
  | nil => simp
  | cons q0 ps ih =>
    simp only [bestRule] at h
    cases hb : bestRule ps s with
    | none =>
      rw [hb] at h; dsimp only at h
      by_cases hq0 : matchPair s q0
      · rw [if_pos hq0] at h; exact absurd h (by simp)
      · intro q hq
        rcases List.mem_cons.mp hq with rfl | hmem
        · exact Bool.eq_false_iff.mpr hq0
        · exact ih hb q hmem
    | some best =>
      rw [hb] at h; dsimp only at h
      by_cases hq0 : matchPair s q0
      · rw [if_pos hq0] at h
        split at h <;> exact absurd h (by simp)
      · rw [if_neg hq0] at h; exact absurd h (by simp)

theorem bestRule_matches (pairs : List (List Char × List Char))
    (s : List Char) (pr : List Char × List Char)
    (h : bestRule pairs s = some pr) : matchPair s pr = true := by
  induction pairs with
  | nil => simp [bestRule] at h
  | cons q0 ps ih =>
    simp only [bestRule] at h
    cases hb : bestRule ps s with
    | none =>
      rw [hb] at h; dsimp only at h
      by_cases hq0 : matchPair s q0
      · rw [if_pos hq0] at h
        rw [← Option.some.inj h]; exact hq0
      · rw [if_neg hq0] at h; exact absurd h (by simp)
    | some best =>
      rw [hb] at h; dsimp only at h
      by_cases hq0 : matchPair s q0
      · rw [if_pos hq0] at h
        by_cases hl : best.1.length > q0.1.length
        · rw [if_pos hl] at h
          have hbp := Option.some.inj h
          subst hbp
          exact ih hb
        · rw [if_neg hl] at h
          rw [← Option.some.inj h]; exact hq0
      · rw [if_neg hq0] at h
        have hbp := Option.some.inj h
        subst hbp
        exact ih hb

theorem bestRule_pat_ne_nil (pairs : List (List Char × List Char))
    (s : List Char) (pr : List Char × List Char)
    (h : bestRule pairs s = some pr) : pr.1 ≠ [] := by
  have hm := bestRule_matches pairs s pr h
  unfold matchPair at hm
  intro hnil
  rw [hnil] at hm
  simp at hm

theorem bestRule_mem (pairs : List (List Char × List Char))
    (s : List Char) (pr : List Char × List Char)
    (h : bestRule pairs s = some pr) : pr ∈ pairs := by
  induction pairs with
  | nil => simp [bestRule] at h
  | cons q0 ps ih =>
    simp only [bestRule] at h
    cases hb : bestRule ps s with
    | none =>
      rw [hb] at h; dsimp only at h
      by_cases hq0 : matchPair s q0
      · rw [if_pos hq0] at h
        rw [← Option.some.inj h]; exact List.mem_cons_self _ _
      · rw [if_neg hq0] at h; exact absurd h (by simp)
    | some best =>
      rw [hb] at h; dsimp only at h
      by_cases hq0 : matchPair s q0
      · rw [if_pos hq0] at h
        by_cases hl : best.1.length > q0.1.length
        · rw [if_pos hl] at h
          have hbp := Option.some.inj h
          subst hbp
          exact List.mem_cons_of_mem q0 (ih hb)
        · rw [if_neg hl] at h
          rw [← Option.some.inj h]; exact List.mem_cons_self _ _
      · rw [if_neg hq0] at h
        have hbp := Option.some.inj h
        subst hbp
        exact List.mem_cons_of_mem q0 (ih hb)

theorem bestRule_longest (pairs : List (List Char × List Char))
    (s : List Char) (pr : List Char × List Char)
    (h : bestRule pairs s = some pr) :
    ∀ q ∈ pairs, matchPair s q = true → q.1.length ≤ pr.1.length := by
  induction pairs generalizing pr with
  | nil => simp
  | cons q0 ps ih =>
    intro q hq hmq
    simp only [bestRule] at h
    cases hb : bestRule ps s with
    | none =>
      rw [hb] at h; dsimp only at h
      by_cases hq0 : matchPair s q0
      · rw [if_pos hq0] at h
        rcases List.mem_cons.mp hq with rfl | hmem
        · rw [← Option.some.inj h]
        · rw [bestRule_none ps s hb q hmem] at hmq
          exact absurd hmq (by simp)
      · rw [if_neg hq0] at h; exact absurd h (by simp)
    | some best =>
      rw [hb] at h; dsimp only at h
      by_cases hq0 : matchPair s q0
      · rw [if_pos hq0] at h
        rcases List.mem_cons.mp hq with rfl | hmem
        · by_cases hl : best.1.length > q.1.length
          · rw [if_pos hl] at h
            rw [← Option.some.inj h]; omega
          · rw [if_neg hl] at h
            rw [← Option.some.inj h]
        · have hle := ih best hb q hmem hmq
          by_cases hl : best.1.length > q0.1.length
          · rw [if_pos hl] at h
            rw [← Option.some.inj h]; exact hle
          · rw [if_neg hl] at h
            rw [← Option.some.inj h]; omega
      · rw [if_neg hq0] at h
        rcases List.mem_cons.mp hq with rfl | hmem
        · exact absurd hmq (by simp [Bool.eq_false_iff.mpr hq0])
        · rw [← Option.some.inj h]; exact ih best hb q hmem hmq

theorem hostSub_nil (pairs : List (List Char × List Char)) :
    hostSub pairs [] = [] := by
  simp [hostSub, replaceFuel]

/-- When the input is exactly a configured pattern (and no other rule
shares that pattern), `hostSub` yields exactly its replacement. -/
theorem hostSub_exact (pairs : List (List Char × List Char))
    (pat rep : List Char) (hmem : (pat, rep) ∈ pairs) (hne : pat ≠ [])
    (huniq : ∀ q ∈ pairs, q.1 = pat → q.2 = rep) :
    hostSub pairs pat = rep := by
  have hmatch : matchPair pat (pat, rep) = true := by
    unfold matchPair
    simp [List.isPrefixOf_iff_prefix]
    cases pat with
    | nil => exact absurd rfl hne
    | cons a as => simp
  -- bestRule returns some rule; it must be (pat, rep)
  cases hb : bestRule pairs pat with
  | none =>
    exfalso
    rw [bestRule_none pairs pat hb (pat, rep) hmem] at hmatch
    exact Bool.false_ne_true hmatch
  | some pr =>
    have hprm := bestRule_matches pairs pat pr hb
    have hprefix : pr.1 <+: pat := by
      unfold matchPair at hprm
      exact List.isPrefixOf_iff_prefix.mp (by
        cases hand : pr.1.isPrefixOf pat
        · rw [hand] at hprm; simp at hprm
        · rfl)
    have hlong := bestRule_longest pairs pat pr hb (pat, rep) hmem hmatch
    have heq : pr.1 = pat :=
      List.IsPrefix.eq_of_length_le hprefix (by simpa using hlong)
    have hrep : pr.2 = rep := huniq pr (bestRule_mem pairs pat pr hb) heq
    cases hpat : pat with
    | nil => exact absurd hpat hne
    | cons c rest =>
      subst hpat
      show replaceFuel (bestRule pairs) (c :: rest).length (c :: rest) = rep
      have hlen : (c :: rest).length = rest.length + 1 := rfl
      rw [hlen]
      simp only [replaceFuel, hb]
      rw [heq]
      have : ((c :: rest).drop (c :: rest).length) = [] := by
        simp
      rw [this, replaceFuel_nil, hrep]
      simp

/-- With two configured mappings whose first pattern is strictly longer,
the longer pattern is selected at an occurrence of it. -/
theorem bestRule_two_head (lpat x spat y b : List Char)
    (hlen : spat.length < lpat.length) (hl : lpat ≠ []) :
    bestRule [(lpat, x), (spat, y)] (lpat ++ b) = some (lpat, x) := by
  have h1 : lpat.isPrefixOf (lpat ++ b) = true :=
    List.isPrefixOf_iff_prefix.mpr (List.prefix_append lpat b)
  have h2 : lpat.isEmpty = false := by
    cases lpat with
    | nil => exact absurd rfl hl
    | cons a as => rfl
  have hmatch : matchPair (lpat ++ b) (lpat, x) = true := by
    simp [matchPair, h1, h2]
  simp only [bestRule]
  by_cases hs : matchPair (lpat ++ b) (spat, y)
  · rw [if_pos hs]
    dsimp only
    rw [if_pos hmatch]
    have hng : ¬ ((spat, y).1.length > (lpat, x).1.length) := by
      change ¬ (spat.length > lpat.length)
      omega
    rw [if_neg hng]
  · rw [if_neg hs]
    dsimp only
    rw [if_pos hmatch]

/-- Lifting `replaceFuel` with the `bestRule` selector back to
`hostSub`. -/
theorem hostSub_fuel (pairs : List (List Char × List Char))
    (f : Nat) (s : List Char) (hf : s.length ≤ f) :
    replaceFuel (bestRule pairs) f s = hostSub pairs s := by
  exact replaceFuel_congr (bestRule pairs)
    (fun s' pr h => bestRule_pat_ne_nil pairs s' pr h)
    f s hf f s.length hf (le_refl _)

/-- C4: for a mapping `(real, phish)` of the active phishlet, rewriting
the real hostname on the response path (real→phished, longest-match-first
over the configured pairs) and then rewriting the result on the next
request path (phished→real, the swapped pairs) yields the original
hostname exactly.  The same substitution is what cookie-domain rewriting
applies, so a cookie domain rewritten on the response path is exactly
reversible on the request path.  The hypotheses are spec §3's invariants:
hostnames are non-empty, no second rule carries the same real hostname,
and every phished hostname is unique. -/
theorem claim_roundtrip_rewrite
    (pairs : List (List Char × List Char)) (real phish : List Char)
    (hmem : (real, phish) ∈ pairs) (hr : real ≠ []) (hp : phish ≠ [])
    (horig : ∀ q ∈ pairs, q.1 = real → q.2 = phish)
    (hphish : ∀ q ∈ pairs, q.2 = phish → q.1 = real) :
    hostSub (swapPairs pairs) (hostSub pairs real) = real := by
  rw [hostSub_exact pairs real phish hmem hr horig]
  refine hostSub_exact (swapPairs pairs) phish real ?_ hp ?_
  · exact List.mem_map.mpr ⟨(real, phish), hmem, rfl⟩
  · intro q hq hq1
    rcases List.mem_map.mp hq with ⟨q0, hq0, rfl⟩
    have h2 : q0.2 = phish := hq1
    have := hphish q0 hq0 h2
    simpa [Prod.swap] using this

/-- Witness for C4 at the spec's end-to-end scenario hosts. -/
theorem claim_roundtrip_rewrite_witness :
    hostSub (swapPairs [("login.real.test".data, "login.evil.test".data)])
      (hostSub [("login.real.test".data, "login.evil.test".data)]
        "login.real.test".data)
      = "login.real.test".data :=
  claim_roundtrip_rewrite
    [("login.real.test".data, "login.evil.test".data)]
    "login.real.test".data "login.evil.test".data
    (by decide) (by decide) (by decide) (by decide) (by decide)

/-- C5: with mappings `(lpat → x)` and `(spat → y)` configured where the
real hostname `spat` is shorter (e.g. a suffix such as `b.com` of
`a.b.com`), an occurrence of the longer hostname is rewritten by its own
mapping: the scan emits `x` and continues after the occurrence; the
shorter mapping never claims it. -/
theorem claim_longest_match (lpat x spat y b : List Char)
    (hlen : spat.length < lpat.length) (hl : lpat ≠ []) :
    hostSub [(lpat, x), (spat, y)] (lpat ++ b)
      = x ++ hostSub [(lpat, x), (spat, y)] b := by
  have hbest := bestRule_two_head lpat x spat y b hlen hl
  cases hlp : lpat with
  | nil => exact absurd hlp hl
  | cons c l' =>
    subst hlp
    have hform : (c :: l') ++ b = c :: (l' ++ b) := rfl
    unfold hostSub
    rw [hform] at hbest ⊢
    have hfuel : (c :: (l' ++ b)).length = (l' ++ b).length + 1 := rfl
    rw [hfuel]
    simp only [replaceFuel, hbest]
    have hdrop : (c :: (l' ++ b)).drop (c :: l').length = b := by
      have : (c :: (l' ++ b)) = (c :: l') ++ b := rfl
      rw [this]
      exact List.drop_left _ _
    rw [hdrop]
    have := hostSub_fuel [(c :: l', x), (spat, y)] (l' ++ b).length b
      (by simp)
    rw [this]
    rfl

/-- Witness for C5 at the spec's example: `a.b.com/path` with mappings
`a.b.com→x` and `b.com→y` rewrites to `x/path`. -/
theorem claim_longest_match_witness :
    hostSub [("a.b.com".data, "x".data), ("b.com".data, "y".data)]
      "a.b.com/path".data = "x/path".data := by
  have h := claim_longest_match "a.b.com".data "x".data "b.com".data
    "y".data "/path".data (by decide) (by decide)
  have e : "a.b.com/path".data = "a.b.com".data ++ "/path".data := by decide
  rw [e, h]
  decide

/-! ## Telegram queue lemmas -/

/-- The drain loop attempts every pending message, in queue order. -/
theorem workerDrain_fst (q : List TelegramMessage) :
    (workerDrain q).1 = q := by
  induction q with
  | nil => rfl
  | cons m rest ih => simp [workerDrain, ih]

/-- The drain loop leaves the queue empty. -/
theorem workerDrain_snd (q : List TelegramMessage) :
    (workerDrain q).2 = [] := by
  induction q with
  | nil => rfl
  | cons m rest ih => simp [workerDrain, ih]

/-- C1: on an enabled and configured bot, `SendCredentials` and
`SendSessionUpdate` are total functions returning no error to the caller
(their Go signatures return nothing; the modelled outcome has no error
constructor and the non-blocking `select`/`default` never waits): with a
free queue slot the formatted message is appended to the queue, and on a
full queue the queue is left unchanged and the message is dropped with the
logged warning (`droppedQueueFull`). -/
theorem claim_emit_nonblocking (t : TelegramBot) (sid : Int)
    (u pw ip ua dom ts ty v : String)
    (hcfg : notConfigured t = false) :
    ((t.msgQueue.length < queueCapacity →
        sendCredentials t sid u pw ip ua dom ts
          = ({ t with msgQueue := t.msgQueue ++
              [credentialsMessage t sid u pw ip ua dom ts] },
             EmitOutcome.enqueued)) ∧
      (queueCapacity ≤ t.msgQueue.length →
        sendCredentials t sid u pw ip ua dom ts
          = (t, EmitOutcome.droppedQueueFull))) ∧
    ((t.msgQueue.length < queueCapacity →
        sendSessionUpdate t sid ty v ip ts
          = ({ t with msgQueue := t.msgQueue ++
              [updateMessage t sid ty v ip ts] },
             EmitOutcome.enqueued)) ∧
      (queueCapacity ≤ t.msgQueue.length →
        sendSessionUpdate t sid ty v ip ts
          = (t, EmitOutcome.droppedQueueFull))) := by
  refine ⟨⟨fun h => ?_, fun h => ?_⟩, fun h => ?_, fun h => ?_⟩
  · simp [sendCredentials, hcfg, h]
  · simp [sendCredentials, hcfg, Nat.not_lt.mpr h]
  · simp [sendSessionUpdate, hcfg, h]
  · simp [sendSessionUpdate, hcfg, Nat.not_lt.mpr h]

/-- Witness for C1: on the configured empty-queue bot an emission appends
the formatted message. -/
theorem claim_emit_nonblocking_witness :
    sendCredentials witnessBot 1 "alice" "pw" "10.0.0.1" "UA" "d.test" "t0"
      = ({ witnessBot with msgQueue := witnessBot.msgQueue ++
          [credentialsMessage witnessBot 1 "alice" "pw" "10.0.0.1" "UA"
            "d.test" "t0"] },
         EmitOutcome.enqueued) :=
  (claim_emit_nonblocking witnessBot 1 "alice" "pw" "10.0.0.1" "UA"
    "d.test" "t0" "username" "v" (by decide)).1.1 (by decide)

/-- C2 counterexample: on an enabled, configured bot whose queue is full,
an emission is dropped: the queue is unchanged and the event's message
never enters the queue, so the worker (which only attempts messages taken
from the queue) never makes a delivery attempt for it -- the claim's
"regardless of queue state" fails. -/
theorem claim_at_least_once_cex :
    notConfigured fullBot = false ∧
    (sendCredentials fullBot 7 "alice" "hunter2" "10.0.0.1" "UA"
      "example.com" "t0").2 = EmitOutcome.droppedQueueFull ∧
    (sendCredentials fullBot 7 "alice" "hunter2" "10.0.0.1" "UA"
      "example.com" "t0").1.msgQueue = fullBot.msgQueue ∧
    credentialsMessage fullBot 7 "alice" "hunter2" "10.0.0.1" "UA"
      "example.com" "t0"
      ∉ (workerDrain (sendCredentials fullBot 7 "alice" "hunter2"
          "10.0.0.1" "UA" "example.com" "t0").1.msgQueue).1 := by
  refine ⟨rfl, by decide, by decide, ?_⟩
  rw [workerDrain_fst]
  intro hmem
  have hq : (sendCredentials fullBot 7 "alice" "hunter2" "10.0.0.1" "UA"
      "example.com" "t0").1.msgQueue
      = List.replicate queueCapacity dummyMessage := by decide
  rw [hq] at hmem
  have := List.eq_of_mem_replicate hmem
  have htext : (credentialsMessage fullBot 7 "alice" "hunter2" "10.0.0.1"
      "UA" "example.com" "t0").text = dummyMessage.text := congrArg
    TelegramMessage.text this
  exact absurd htext (by decide)

/-- C2 amended: an emission on an enabled, configured bot whose queue has
a free slot is enqueued, and the worker's processing of the queue attempts
every queued message, so every *enqueued* capture event reaches at least
one delivery attempt.  (Events emitted against a full queue are dropped
with a warning and never attempted.) -/
theorem claim_enqueued_reaches_attempt (t : TelegramBot) (sid : Int)
    (u pw ip ua dom ts ty v : String)
    (hcfg : notConfigured t = false)
    (hroom : t.msgQueue.length < queueCapacity) :
    ((sendCredentials t sid u pw ip ua dom ts).2 = EmitOutcome.enqueued ∧
     (workerDrain (sendCredentials t sid u pw ip ua dom ts).1.msgQueue).1
       = t.msgQueue ++ [credentialsMessage t sid u pw ip ua dom ts] ∧
     credentialsMessage t sid u pw ip ua dom ts
       ∈ (workerDrain
           (sendCredentials t sid u pw ip ua dom ts).1.msgQueue).1) ∧
    ((sendSessionUpdate t sid ty v ip ts).2 = EmitOutcome.enqueued ∧
     updateMessage t sid ty v ip ts
       ∈ (workerDrain
           (sendSessionUpdate t sid ty v ip ts).1.msgQueue).1) := by
  simp [sendCredentials, sendSessionUpdate, hcfg, hroom, workerDrain_fst]

/-- Witness for C2's amended claim on the configured empty-queue bot. -/
theorem claim_enqueued_reaches_attempt_witness :
    (sendCredentials witnessBot 1 "alice" "pw" "10.0.0.1" "UA" "d.test"
      "t0").2 = EmitOutcome.enqueued ∧
    credentialsMessage witnessBot 1 "alice" "pw" "10.0.0.1" "UA" "d.test"
      "t0" ∈ (workerDrain (sendCredentials witnessBot 1 "alice" "pw"
        "10.0.0.1" "UA" "d.test" "t0").1.msgQueue).1 :=
  ⟨(claim_enqueued_reaches_attempt witnessBot 1 "alice" "pw" "10.0.0.1"
      "UA" "d.test" "t0" "username" "v" (by decide) (by decide)).1.1,
   (claim_enqueued_reaches_attempt witnessBot 1 "alice" "pw" "10.0.0.1"
      "UA" "d.test" "t0" "username" "v" (by decide) (by decide)).1.2.2⟩

/-- C3: when `Stop` is called on a bot whose worker was started, the
worker's drain loop attempts to send every message still pending in the
queue (in order) before exiting, `Stop` returns only after the worker has
exited (modelled by `stopBot` returning the post-drain state), and the
queue is empty afterwards. -/
theorem claim_stop_drains (t : TelegramBot) (hstart : t.started = true) :
    (stopBot t).2 = t.msgQueue ∧ (stopBot t).1.msgQueue = [] := by
  simp [stopBot, hstart, workerDrain_fst, workerDrain_snd]

/-- Witness for C3 on the full started bot. -/
theorem claim_stop_drains_witness :
    (stopBot fullBot).2 = fullBot.msgQueue ∧
    (stopBot fullBot).1.msgQueue = [] :=
  claim_stop_drains fullBot (by decide)

/-- Every single step keeps the queue within capacity. -/
theorem botStep_bounded (t : TelegramBot) (op : BotOp)
    (h : t.msgQueue.length ≤ queueCapacity) :
    (botStep t op).msgQueue.length ≤ queueCapacity := by
  cases op with
  | emitCred sid u pw ip ua dom ts =>
    by_cases hcfg : notConfigured t
    · simp [botStep, sendCredentials, hcfg]; exact h
    · by_cases hroom : t.msgQueue.length < queueCapacity
      · simp [botStep, sendCredentials, hcfg, hroom]
        omega
      · simp [botStep, sendCredentials, hcfg, hroom]
        exact h
  | emitUpdate sid ty v ip ts =>
    by_cases hcfg : notConfigured t
    · simp [botStep, sendSessionUpdate, hcfg]; exact h
    · by_cases hroom : t.msgQueue.length < queueCapacity
      · simp [botStep, sendSessionUpdate, hcfg, hroom]
        omega
      · simp [botStep, sendSessionUpdate, hcfg, hroom]
        exact h
  | workerTake =>
    simp only [botStep, List.length_tail]
    omega
  | configure tok chat en => simpa [botStep, setConfig] using h

/-- The bound is preserved along any operation sequence. -/
theorem runBot_bounded_from (ops : List BotOp) :
    ∀ t : TelegramBot, t.msgQueue.length ≤ queueCapacity →
      (ops.foldl botStep t).msgQueue.length ≤ queueCapacity := by
  induction ops with
  | nil => intro t h; exact h
  | cons op rest ih =>
    intro t h
    exact ih (botStep t op) (botStep_bounded t op h)

/-- C7: the notification queue is bounded: starting from the freshly
constructed bot, after any sequence of emissions, worker dequeues and
reconfigurations the number of pending messages never exceeds the fixed
capacity 100; and any emission against a full queue leaves the queue's
contents unchanged. -/
theorem claim_queue_bounded :
    (∀ ops : List BotOp, (runBot ops).msgQueue.length ≤ queueCapacity) ∧
    (∀ (t : TelegramBot) (sid : Int) (u pw ip ua dom ts ty v : String),
      t.msgQueue.length = queueCapacity →
      (sendCredentials t sid u pw ip ua dom ts).1.msgQueue = t.msgQueue ∧
      (sendSessionUpdate t sid ty v ip ts).1.msgQueue = t.msgQueue) := by
  constructor
  · intro ops
    exact runBot_bounded_from ops newTelegramBot (by simp [newTelegramBot])
  · intro t sid u pw ip ua dom ts ty v hfull
    have hnl : ¬ (t.msgQueue.length < queueCapacity) := by omega
    constructor
    · simp [sendCredentials, hnl]
      split <;> rfl
    · simp [sendSessionUpdate, hnl]
      split <;> rfl

/-- Witness for C7: an emission against the full bot's queue leaves its
contents unchanged. -/
theorem claim_queue_bounded_witness :
    (sendCredentials fullBot 1 "u" "pw" "ip" "ua" "d" "t0").1.msgQueue
      = fullBot.msgQueue ∧
    (sendSessionUpdate fullBot 1 "username" "v" "ip" "t0").1.msgQueue
      = fullBot.msgQueue :=
  claim_queue_bounded.2 fullBot 1 "u" "pw" "ip" "ua" "d" "t0" "username"
    "v" (by decide)

/-- C9: `SendTestMessage`'s own guard checks only the token and chat ID,
but the `sendMessage` it calls also requires the enabled flag, so a bot
with both token and chat ID non-empty but `enabled` false still gets the
error "telegram bot not configured"; and whenever the token or the chat ID
is empty the same error is returned by the guard itself. -/
theorem claim_test_message_guard (t : TelegramBot) (net : NetOutcome) :
    (t.botToken ≠ "" → t.chatID ≠ "" → t.enabled = false →
      sendTestMessage t net
        = Except.error "telegram bot not configured") ∧
    ((t.botToken = "" ∨ t.chatID = "") →
      sendTestMessage t net
        = Except.error "telegram bot not configured") := by
  constructor
  · intro h1 h2 h3
    have hb : (t.botToken == "") = false := by simp [h1]
    have hc : (t.chatID == "") = false := by simp [h2]
    simp [sendTestMessage, sendMessageResult, notConfigured, hb, hc, h3]
  · rintro (h | h) <;> simp [sendTestMessage, h]

/-- Witness for C9: configured but disabled bot, would-be-successful
network. -/
theorem claim_test_message_guard_witness :
    sendTestMessage disabledBot (NetOutcome.status 200)
      = Except.error "telegram bot not configured" :=
  (claim_test_message_guard disabledBot (NetOutcome.status 200)).1
    (by decide) (by decide) (by decide)

/-- C10: `SendDocument` deletes the file at `filePath` exactly when the
upload succeeds: a `nil` (ok) return removes the file from the modelled
filesystem and touches no other path, while every error return
(unconfigured bot, file-open failure, any form-construction failure,
request failure, non-200 status) leaves the filesystem unchanged. -/
theorem claim_document_removal (t : TelegramBot) (eff : DocEffects)
    (fs : String → Bool) (filePath caption : String) :
    ((sendDocument t eff fs filePath caption).1 = Except.ok () →
      ((sendDocument t eff fs filePath caption).2 filePath = false ∧
       ∀ p : String, p ≠ filePath →
         (sendDocument t eff fs filePath caption).2 p = fs p)) ∧
    (∀ e : String,
      (sendDocument t eff fs filePath caption).1 = Except.error e →
      (sendDocument t eff fs filePath caption).2 = fs) := by
  by_cases h1 : notConfigured t = true
  · refine ⟨fun hok => ?_, fun e he => ?_⟩
    · simp only [sendDocument, if_pos h1] at hok
      exact absurd hok (by simp)
    · rw [sendDocument, if_pos h1]
  by_cases h2 : (!(fs filePath && eff.openOk)) = true
  · refine ⟨fun hok => ?_, fun e he => ?_⟩
    · simp only [sendDocument, if_neg h1, if_pos h2] at hok
      exact absurd hok (by simp)
    · rw [sendDocument, if_neg h1, if_pos h2]
  by_cases h3 : (!eff.createFormOk) = true
  · refine ⟨fun hok => ?_, fun e he => ?_⟩
    · simp only [sendDocument, if_neg h1, if_neg h2, if_pos h3] at hok
      exact absurd hok (by simp)
    · rw [sendDocument, if_neg h1, if_neg h2, if_pos h3]
  by_cases h4 : (!eff.copyOk) = true
  · refine ⟨fun hok => ?_, fun e he => ?_⟩
    · simp only [sendDocument, if_neg h1, if_neg h2, if_neg h3,
        if_pos h4] at hok
      exact absurd hok (by simp)
    · rw [sendDocument, if_neg h1, if_neg h2, if_neg h3, if_pos h4]
  by_cases h5 : (!eff.chatFieldOk) = true
  · refine ⟨fun hok => ?_, fun e he => ?_⟩
    · simp only [sendDocument, if_neg h1, if_neg h2, if_neg h3, if_neg h4,
        if_pos h5] at hok
      exact absurd hok (by simp)
    · rw [sendDocument, if_neg h1, if_neg h2, if_neg h3, if_neg h4,
        if_pos h5]
  by_cases h6 : (caption != "" && !eff.captionFieldOk) = true
  · refine ⟨fun hok => ?_, fun e he => ?_⟩
    · simp only [sendDocument, if_neg h1, if_neg h2, if_neg h3, if_neg h4,
        if_neg h5, if_pos h6] at hok
      exact absurd hok (by simp)
    · rw [sendDocument, if_neg h1, if_neg h2, if_neg h3, if_neg h4,
        if_neg h5, if_pos h6]
  by_cases h7 : (caption != "" && !eff.parseModeFieldOk) = true
  · refine ⟨fun hok => ?_, fun e he => ?_⟩
    · simp only [sendDocument, if_neg h1, if_neg h2, if_neg h3, if_neg h4,
        if_neg h5, if_neg h6, if_pos h7] at hok
      exact absurd hok (by simp)
    · rw [sendDocument, if_neg h1, if_neg h2, if_neg h3, if_neg h4,
        if_neg h5, if_neg h6, if_pos h7]
  by_cases h8 : (!eff.closeOk) = true
  · refine ⟨fun hok => ?_, fun e he => ?_⟩
    · simp only [sendDocument, if_neg h1, if_neg h2, if_neg h3, if_neg h4,
        if_neg h5, if_neg h6, if_neg h7, if_pos h8] at hok
      exact absurd hok (by simp)
    · rw [sendDocument, if_neg h1, if_neg h2, if_neg h3, if_neg h4,
        if_neg h5, if_neg h6, if_neg h7, if_pos h8]
  by_cases h9 : (!eff.newRequestOk) = true
  · refine ⟨fun hok => ?_, fun e he => ?_⟩
    · simp only [sendDocument, if_neg h1, if_neg h2, if_neg h3, if_neg h4,
        if_neg h5, if_neg h6, if_neg h7, if_neg h8, if_pos h9] at hok
      exact absurd hok (by simp)
    · rw [sendDocument, if_neg h1, if_neg h2, if_neg h3, if_neg h4,
        if_neg h5, if_neg h6, if_neg h7, if_neg h8, if_pos h9]
  by_cases h10 : (!eff.doOk) = true
  · refine ⟨fun hok => ?_, fun e he => ?_⟩
    · simp only [sendDocument, if_neg h1, if_neg h2, if_neg h3, if_neg h4,
        if_neg h5, if_neg h6, if_neg h7, if_neg h8, if_neg h9,
        if_pos h10] at hok
      exact absurd hok (by simp)
    · rw [sendDocument, if_neg h1, if_neg h2, if_neg h3, if_neg h4,
        if_neg h5, if_neg h6, if_neg h7, if_neg h8, if_neg h9, if_pos h10]
  by_cases h11 : (eff.statusCode != 200) = true
  · refine ⟨fun hok => ?_, fun e he => ?_⟩
    · simp only [sendDocument, if_neg h1, if_neg h2, if_neg h3, if_neg h4,
        if_neg h5, if_neg h6, if_neg h7, if_neg h8, if_neg h9, if_neg h10,
        if_pos h11] at hok
      exact absurd hok (by simp)
    · rw [sendDocument, if_neg h1, if_neg h2, if_neg h3, if_neg h4,
        if_neg h5, if_neg h6, if_neg h7, if_neg h8, if_neg h9, if_neg h10,
        if_pos h11]
  · refine ⟨fun hok => ⟨?_, fun p hp => ?_⟩, fun e he => ?_⟩
    · simp only [sendDocument, if_neg h1, if_neg h2, if_neg h3, if_neg h4,
        if_neg h5, if_neg h6, if_neg h7, if_neg h8, if_neg h9, if_neg h10,
        if_neg h11]
      simp
    · simp only [sendDocument, if_neg h1, if_neg h2, if_neg h3, if_neg h4,
        if_neg h5, if_neg h6, if_neg h7, if_neg h8, if_neg h9, if_neg h10,
        if_neg h11]
      simp [hp]
    · simp only [sendDocument, if_neg h1, if_neg h2, if_neg h3, if_neg h4,
        if_neg h5, if_neg h6, if_neg h7, if_neg h8, if_neg h9, if_neg h10,
        if_neg h11] at he
      exact absurd he (by simp)

/-- Witness for C10: on a success run the file is removed; on a failed
run (non-200 status) it is left in place. -/
theorem claim_document_removal_witness :
    (sendDocument witnessBot
      { openOk := true, createFormOk := true, copyOk := true,
        chatFieldOk := true, captionFieldOk := true,
        parseModeFieldOk := true, closeOk := true, newRequestOk := true,
        doOk := true, statusCode := 200 }
      (fun p => p == "/tmp/session.json") "/tmp/session.json" "cap").2
        "/tmp/session.json" = false ∧
    (sendDocument witnessBot
      { openOk := true, createFormOk := true, copyOk := true,
        chatFieldOk := true, captionFieldOk := true,
        parseModeFieldOk := true, closeOk := true, newRequestOk := true,
        doOk := true, statusCode := 500 }
      (fun p => p == "/tmp/session.json") "/tmp/session.json" "cap").2
      = (fun p => p == "/tmp/session.json") :=
  ⟨((claim_document_removal witnessBot
      { openOk := true, createFormOk := true, copyOk := true,
        chatFieldOk := true, captionFieldOk := true,
        parseModeFieldOk := true, closeOk := true, newRequestOk := true,
        doOk := true, statusCode := 200 }
      (fun p => p == "/tmp/session.json") "/tmp/session.json" "cap").1
      rfl).1,
   (claim_document_removal witnessBot
      { openOk := true, createFormOk := true, copyOk := true,
        chatFieldOk := true, captionFieldOk := true,
        parseModeFieldOk := true, closeOk := true, newRequestOk := true,
        doOk := true, statusCode := 500 }
      (fun p => p == "/tmp/session.json") "/tmp/session.json" "cap").2
      "telegram API returned status code: 500" rfl⟩

/-! ## Markdown escaping lemmas -/

/-- `mdPairs` is the single-character table over `mdSpecialChars`. -/
theorem mdPairsChars_eq :
    mdPairsChars = mdSpecialChars.map (fun d => ([d], ['\\', d])) := by
  decide

/-- On a table of single-character patterns, the Replacer's first-match
selection finds exactly the rule of the leading character, when that
character is special. -/
theorem firstRule_singletonPats (specials : List Char) (c : Char)
    (rest : List Char) :
    firstRule (specials.map (fun a => ([a], ['\\', a]))) (c :: rest)
      = if specials.contains c then some ([c], ['\\', c]) else none := by
  induction specials with
  | nil => simp [firstRule]
  | cons d ds ih =>
    have hm : matchPair (c :: rest) ([d], ['\\', d]) = (d == c) := by
      simp [matchPair, List.isPrefixOf]
    unfold firstRule at ih ⊢
    simp only [List.map_cons, List.find?_cons, hm]
    by_cases hdc : d = c
    · subst hdc
      have hdd : (d == d) = true := by simp
      rw [hdd]
      have hcont : (d :: ds).contains d = true := by simp
      rw [hcont]
      rfl
    · have hne : (d == c) = false := by simp [hdc]
      rw [hne]
      have hcont : (d :: ds).contains c = ds.contains c := by
        simp [List.contains_cons]
        exact fun h => absurd h.symm hdc
      rw [hcont]
      exact ih

/-- The Go Replacer run over `mdPairs` equals the claim-side per-character
escaping. -/
theorem goReplacer_md (l : List Char) :
    goReplacerRun mdPairsChars l = escSpecList l := by
  induction l with
  | nil => rfl
  | cons c rest ih =>
    unfold goReplacerRun at ih ⊢
    show replaceFuel (firstRule mdPairsChars) (rest.length + 1) (c :: rest)
      = escSpecList (c :: rest)
    have hfr := firstRule_singletonPats mdSpecialChars c rest
    rw [← mdPairsChars_eq] at hfr
    cases hc : mdSpecialChars.contains c with
    | false =>
      have hnone : firstRule mdPairsChars (c :: rest) = none := by
        rw [hfr, hc]; rfl
      simp only [replaceFuel, hnone]
      simp at hc
      simp [escSpecList, hc, ih]
    | true =>
      have hsome : firstRule mdPairsChars (c :: rest)
          = some ([c], ['\\', c]) := by
        rw [hfr, hc]; rfl
      simp only [replaceFuel, hsome]
      simp at hc
      simp [escSpecList, hc, ih]

/-- C8: `escapeMarkdown` equals the per-character description: each of the
18 special characters `_ * [ ] ( ) ~ ` > # + - = | { } . !` is replaced by
a backslash followed by that character and every other character
(backslash included, which is not in the table) is unchanged; and the
outgoing message texts apply it exactly to the username, password,
user-agent and update-value fields, never to the ip or domain fields. -/
theorem claim_escape_markdown :
    (∀ s : String, escapeMarkdown s = escapeMarkdownSpec s) ∧
    mdSpecialChars.length = 18 ∧
    mdSpecialChars.contains '\\' = false ∧
    (∀ (sid : Int) (u pw ip ua dom ts : String),
      sendCredentialsText sid u pw ip ua dom ts
        = credentialsTemplate sid (escapeMarkdown u) (escapeMarkdown pw)
            ip (escapeMarkdown ua) dom ts) ∧
    (∀ (sid : Int) (ty v ip ts : String),
      sendSessionUpdateText sid ty v ip ts
        = updateTemplate sid ty (escapeMarkdown v) ip ts) := by
  refine ⟨fun s => ?_, by decide, by decide, fun sid u pw ip ua dom ts =>
    rfl, fun sid ty v ip ts => rfl⟩
  unfold escapeMarkdown escapeMarkdownSpec
  exact congrArg String.mk (goReplacer_md s.data)

/-! ## Session capture monotonicity -/

/-- A single event never leaves the AUTHENTICATED state. -/
theorem applyEvent_keeps_auth (ph : PhishletCfg) (s : Session)
    (e : CaptureEvent) (h : s.state = SessState.authenticated) :
    (applyEvent ph s e).state = SessState.authenticated := by
  cases e with
  | credential ft v => simp [applyEvent, h]
  | cookie c =>
    simp only [applyEvent]
    split <;> simp [h]

/-- C6: once a session reaches AUTHENTICATED, applying any further
sequence of capture events leaves it in AUTHENTICATED -- the
`authenticated` flag never reverts to false and the state machine never
moves to an earlier state. -/
theorem claim_authenticated_monotonic (ph : PhishletCfg) (s : Session)
    (evs : List CaptureEvent)
    (h : s.state = SessState.authenticated) :
    (runEvents ph s evs).state = SessState.authenticated ∧
    sessionAuthenticated (runEvents ph s evs) = true := by
  have hrun : ∀ (l : List CaptureEvent) (s0 : Session),
      s0.state = SessState.authenticated →
      (runEvents ph s0 l).state = SessState.authenticated := by
    intro l
    induction l with
    | nil => intro s0 h0; exact h0
    | cons e rest ih =>
      intro s0 h0
      exact ih (applyEvent ph s0 e) (applyEvent_keeps_auth ph s0 e h0)
  refine ⟨hrun evs s h, ?_⟩
  simp [sessionAuthenticated, hrun evs s h]

/-- Witness for C6: an authenticated session stays authenticated through
a later credential re-submission and an unrelated cookie. -/
theorem claim_authenticated_monotonic_witness :
    (runEvents witnessPhishlet witnessSession witnessEvents).state
      = SessState.authenticated ∧
    sessionAuthenticated
      (runEvents witnessPhishlet witnessSession witnessEvents) = true :=
  claim_authenticated_monotonic witnessPhishlet witnessSession
    witnessEvents rfl

end Evilginx
